import Mathlib

/-!
Verification development for the gmail-obsidian-integration repository.

The Python sources are shallowly embedded in Lean: pure functions become Lean
functions over explicit data, stateful code becomes explicit state passing,
Python floats become rationals, Python datetimes become naturals, and fallible
code returns `Except`.  Dynamic-typing failures of the Python runtime
(AttributeError, NameError, TypeError on keyword arguments) are modelled by an
explicit error type.  Each definition is annotated with the source file and
lines it embeds.
-/

/- Batteries marks rational arithmetic irreducible, which blocks evaluation
of the embeddings on concrete inputs; restore the default reducibility. -/
attribute [local semireducible] Rat.mul Rat.add Rat.sub Rat.inv

/-- Python exception values, as far as the embedded code can raise them. -/
inductive PyErr : Type where
  | attributeError (msg : String)
  | nameError (msg : String)
  | typeError (msg : String)
  | valueError (msg : String)
  | rateLimited (msg : String)
  | stillProcessing (msg : String)
  | batchFailed (msg : String)
  deriving DecidableEq, Repr

/-- The text of a Python exception, as `str(e)` would render it. -/
def PyErr.text : PyErr → String
  | .attributeError m => m
  | .nameError m => m
  | .typeError m => m
  | .valueError m => m
  | .rateLimited m => m
  | .stillProcessing m => m
  | .batchFailed m => m

/-! ### Generic helpers shared by several embeddings -/

/-- Characters Python `str.strip()` removes by default. -/
def isPySpace (c : Char) : Bool :=
  c = ' ' || c = '\t' || c = '\n' || c = '\x0d' || c = '\x0b' || c = '\x0c'

/-- Python `s.strip()`: drop leading and trailing whitespace. -/
def pyStrip (s : String) : String :=
  ⟨(s.toList.dropWhile isPySpace).reverse.dropWhile isPySpace |>.reverse⟩

/-- Python `s.lower()` restricted to the ASCII range used by the repository. -/
def pyLower (s : String) : String :=
  ⟨s.toList.map Char.toLower⟩

/-- Equality on `Except` results, used to evaluate the embeddings on
concrete inputs. -/
instance [DecidableEq ε] [DecidableEq α] : DecidableEq (Except ε α) := fun a b =>
  match a, b with
  | .ok x, .ok y =>
      if h : x = y then .isTrue (by rw [h]) else .isFalse (by simp [h])
  | .error x, .error y =>
      if h : x = y then .isTrue (by rw [h]) else .isFalse (by simp [h])
  | .ok _, .error _ => .isFalse (by simp)
  | .error _, .ok _ => .isFalse (by simp)

/-- Python `int()` on a non-negative rational: truncation toward zero. -/
def pyInt (q : ℚ) : ℤ :=
  q.num / (q.den : ℤ)

/-- Fuel-driven worker for `pyChunks` (structural recursion so that the
kernel can evaluate it on concrete inputs; `fuel` bounds the list length). -/
def pyChunksF (fuel n : Nat) (l : List α) : List (List α) :=
  match fuel, l, n with
  | _, [], _ => []
  | _, _ :: _, 0 => []
  | 0, _ :: _, _ + 1 => []
  | f + 1, x :: xs, m + 1 => (x :: xs).take (m + 1) :: pyChunksF f (m + 1) (xs.drop m)

/-- Python slicing into fixed-size chunks, as in
`[xs[i : i + n] for i in range(0, len(xs), n)]`. -/
def pyChunks (n : Nat) (l : List α) : List (List α) :=
  pyChunksF l.length n l

/-- Fuel-driven worker for `firstSeenDedup`. -/
def firstSeenDedupF (fuel : Nat) (l : List String) : List String :=
  match fuel, l with
  | _, [] => []
  | 0, _ :: _ => []
  | f + 1, x :: xs => x :: firstSeenDedupF f (xs.filter (fun y => y ≠ x))

/-- Ordered-unique union: keep the first occurrence of every element,
preserving first-seen order.  This is the specification-side description of
the `seen_sources` accumulation in the contact merger. -/
def firstSeenDedup (l : List String) : List String :=
  firstSeenDedupF l.length l

/-! ### Rate limiter
Embedded from `src/integrations/gmail/rate_limiter.py`.  The Redis-backed
bucket state is the pair (token count, last-refill timestamp); times and token
counts are rationals. -/

/-- The shared bucket state stored in Redis
(`gmail:rate_limiter:tokens`, `gmail:rate_limiter:last_refill`). -/
structure BucketState where
  tokens : ℚ
  lastRefill : ℚ
  deriving DecidableEq, Repr

/-- Limiter configuration (`max_tokens`, `refill_rate`), rate_limiter.py
lines 39-55. -/
structure LimiterCfg where
  maxTokens : ℕ
  refillRate : ℚ
  deriving DecidableEq, Repr

/-- `_refill_tokens` (rate_limiter.py lines 86-107): refill based on elapsed
time, capped at `max_tokens`, and persist the new count with timestamp `now`. -/
def refillTokens (cfg : LimiterCfg) (now : ℚ) (s : BucketState) : BucketState :=
  { tokens := min (s.tokens + (now - s.lastRefill) * cfg.refillRate) (cfg.maxTokens : ℚ)
    lastRefill := now }

/-- `acquire` (rate_limiter.py lines 109-129): refill first, then consume `n`
tokens iff at least `n` are available.  Returns the success flag and the
persisted bucket state. -/
def acquire (cfg : LimiterCfg) (n : ℕ) (now : ℚ) (s : BucketState) :
    Bool × BucketState :=
  let r := refillTokens cfg now s
  if (n : ℚ) ≤ r.tokens then
    (true, { r with tokens := r.tokens - n })
  else
    (false, r)

/-- `k` consecutive `acquire(1)` calls, all at the same instant `now`. -/
def acquireRepeat (cfg : LimiterCfg) (now : ℚ) (s : BucketState) :
    ℕ → Bool × BucketState
  | 0 => (true, s)
  | k + 1 =>
      let (ok, s') := acquireRepeat cfg now s k
      let (ok', s'') := acquire cfg 1 now s'
      (ok && ok', s'')

/-- The sleep inserted between failed `acquire` attempts inside
`wait_for_token` (rate_limiter.py line 149):
`sleep_time = min(1.0 / self.refill_rate, 0.1)`. -/
def sleepTime (refillRate : ℚ) : ℚ :=
  min (1 / refillRate) (1 / 10)

/-- `wait_for_token` polling loop (rate_limiter.py lines 131-154), with the
sequence of `acquire()` outcomes supplied by the environment.  Returns the
list of sleeps performed between consecutive failed attempts. -/
def waitForTokenSleeps (refillRate : ℚ) : List Bool → List ℚ
  | [] => []
  | ok :: rest =>
      if ok then [] else sleepTime refillRate :: waitForTokenSleeps refillRate rest

/-! ### Contact merger
Embedded from `src/services/gmail/contact_merger.py`.  A raw contact record is
a Python dict; every field access in the source goes through `.get`, so every
field is optional here.  Timestamps (`last_contact_at`) are naturals, with
`datetime.min` mapped to `0`. -/

/-- One raw per-account contact record (the input dicts of
`merge_contacts_by_email`). -/
structure RawContact where
  email : Option String
  name : Option String
  phone : Option String
  accountSource : Option String
  emailCount : Option ℕ
  lastContactAt : Option ℕ
  deriving DecidableEq, Repr

/-- A merged contact produced by `_merge_contact_group` plus the normalized
email key attached by `merge_contacts_by_email` (user_id and updated_at are
omitted: they are constants of the call). -/
structure MergedContact where
  email : String
  name : Option String
  phone : Option String
  accountSources : List String
  emailCount : ℕ
  lastContactAt : Option ℕ
  deriving DecidableEq, Repr

/-- `contact.get("email", "").strip().lower()` (contact_merger.py line 58). -/
def normEmail (c : RawContact) : String :=
  pyLower (pyStrip (c.email.getD ""))

/-- Append a contact to its group in an insertion-ordered association list,
mirroring `contact_groups[email].append(contact)` on a `defaultdict(list)`. -/
def addToGroups (gs : List (String × List RawContact)) (e : String)
    (c : RawContact) : List (String × List RawContact) :=
  match gs with
  | [] => [(e, [c])]
  | (k, ms) :: rest =>
      if k = e then (k, ms ++ [c]) :: rest else (k, ms) :: addToGroups rest e c

/-- The grouping loop of `merge_contacts_by_email` (contact_merger.py lines
56-61): records whose normalized email is empty are dropped, the rest are
grouped by normalized email in first-seen key order. -/
def contactGroups (l : List RawContact) : List (String × List RawContact) :=
  l.foldl (fun gs c =>
    let e := normEmail c
    if e = "" then gs else addToGroups gs e c) []

/-- The `account_sources` accumulation of `_merge_contact_group`
(contact_merger.py lines 113-120): append each truthy, not-yet-seen
`account_source` label. -/
def collectSources (g : List RawContact) : List String :=
  g.foldl (fun acc c =>
    match c.accountSource with
    | some s => if s ≠ "" ∧ s ∉ acc then acc ++ [s] else acc
    | none => acc) []

/-- `sum(contact.get("email_count", 0) for contact in contact_list)`
(contact_merger.py line 123). -/
def sumCounts (g : List RawContact) : ℕ :=
  g.foldl (fun acc c => acc + c.emailCount.getD 0) 0

/-- The sort key of `_resolve_name` (contact_merger.py line 157):
`c.get("last_contact_at") or datetime.min`, with `datetime.min` as `0`. -/
def nameKey (c : RawContact) : ℕ :=
  c.lastContactAt.getD 0

/-- `if name and name.strip()` (contact_merger.py line 164): the record has a
non-None name whose trimmed form is non-empty. -/
def goodName (c : RawContact) : Bool :=
  match c.name with
  | some n => pyStrip n ≠ ""
  | none => false

/-- The first record of `sorted_contacts` carrying a usable name, returned
trimmed (contact_merger.py lines 162-167). -/
def firstGoodName : List RawContact → Option String
  | [] => none
  | c :: rest => if goodName c then some (pyStrip (c.name.getD "")) else firstGoodName rest

/-- `_resolve_name` (contact_merger.py lines 144-167): Python `sorted` with
`reverse=True` is a stable descending sort, embedded as Mathlib's stable
`insertionSort` with relation `nameKey b ≤ nameKey a`. -/
def resolveName (g : List RawContact) : Option String :=
  firstGoodName (g.insertionSort (fun a b => nameKey b ≤ nameKey a))

/-- `_resolve_phone` (contact_merger.py lines 170-185): first record with a
truthy phone whose trimmed form is non-empty, returned trimmed. -/
def resolvePhone : List RawContact → Option String
  | [] => none
  | c :: rest =>
      match c.phone with
      | some p => if pyStrip p ≠ "" then some (pyStrip p) else resolvePhone rest
      | none => resolvePhone rest

/-- `_resolve_last_contact` (contact_merger.py lines 188-203): max of the
present timestamps, None when none are present. -/
def resolveLastContact (g : List RawContact) : Option ℕ :=
  (g.filterMap (fun c => c.lastContactAt)).max?

/-- `_merge_contact_group` plus the `merged["email"] = email` step of the
caller (contact_merger.py lines 63-69 and 103-141). -/
def mergeGroup (e : String) (g : List RawContact) : MergedContact :=
  { email := e
    name := resolveName g
    phone := resolvePhone g
    accountSources := collectSources g
    emailCount := sumCounts g
    lastContactAt := resolveLastContact g }

/-- The pure part of `merge_contacts_by_email` (contact_merger.py lines
52-69): the list of merged records handed to the upsert, one per distinct
non-empty normalized email. -/
def mergeContactsByEmail (l : List RawContact) : List MergedContact :=
  (contactGroups l).map (fun g => mergeGroup g.1 g.2)

/-! ### Email rows and the insert-or-ignore upsert
Embedded from `src/worker/tasks.py` lines 285-317 and the unique constraint
`uq_account_message_id` on `(account_id, gmail_message_id)` declared in
`src/models/email.py`. -/

/-- A persisted `Email` row, reduced to the columns the claims mention.  The
surrogate `id` stands for the freshly generated UUID; the natural key is
`(accountId, gmailMessageId)`. -/
structure EmailRow where
  id : ℕ
  accountId : ℕ
  gmailMessageId : String
  subject : String
  senderEmail : String
  date : ℕ
  deriving DecidableEq, Repr

/-- The natural key of an email row. -/
def EmailRow.key (r : EmailRow) : ℕ × String :=
  (r.accountId, r.gmailMessageId)

/-- Insert one row, ignoring it when a row with the same natural key exists:
the per-row semantics of `INSERT ... ON CONFLICT DO NOTHING` with
`index_elements=["account_id", "gmail_message_id"]` (tasks.py lines 312-316). -/
def insertIgnore (db : List EmailRow) (r : EmailRow) : List EmailRow :=
  if db.any (fun x => x.key = r.key) then db else db ++ [r]

/-- Executing the upsert statement over a batch of rows (tasks.py line 316). -/
def insertBatch (db : List EmailRow) (batch : List EmailRow) : List EmailRow :=
  batch.foldl insertIgnore db

/-! ### Claude batch processor
Embedded from `src/integrations/claude/batch_processor.py`.  The Anthropic
client is the environment: a poll observes the batch processing status and,
when it has ended, the per-item result stream.  JSON decoding of the model
response is the Python standard library, so a text block carries either its
decoded themes object or a decode failure. -/

/-- A decoded themes JSON object: the six fields the parser validates, each
possibly missing from the decoded dict. -/
structure RawThemes where
  explicitTopics : Option (List String)
  implicitInterests : Option (List String)
  relationshipContext : Option String
  actionItems : Option (List String)
  sentiment : Option String
  domains : Option (List String)
  deriving DecidableEq, Repr

/-- A fully populated themes payload, as `poll_batch_results` maps ids to. -/
structure Themes where
  explicitTopics : List String
  implicitInterests : List String
  relationshipContext : String
  actionItems : List String
  sentiment : String
  domains : List String
  deriving DecidableEq, Repr

/-- `_empty_themes` (batch_processor.py lines 275-284). -/
def emptyThemes : Themes :=
  { explicitTopics := []
    implicitInterests := []
    relationshipContext := "unknown"
    actionItems := []
    sentiment := "neutral"
    domains := [] }

/-- One content block of a Claude message: a text block whose body either
decodes as a themes JSON object or fails `json.loads`, or a non-text block. -/
inductive ContentBlock where
  | textBlock (decoded : Option RawThemes)
  | otherBlock
  deriving DecidableEq, Repr

/-- The message attached to a succeeded batch item. -/
structure ClaudeMessage where
  content : List ContentBlock
  deriving DecidableEq, Repr

/-- Fill each missing required field with its documented default
(batch_processor.py lines 251-273): list fields default to `[]`,
`relationship_context` to "unknown", `sentiment` to "neutral". -/
def backfillThemes (r : RawThemes) : Themes :=
  { explicitTopics := r.explicitTopics.getD []
    implicitInterests := r.implicitInterests.getD []
    relationshipContext := r.relationshipContext.getD "unknown"
    actionItems := r.actionItems.getD []
    sentiment := r.sentiment.getD "neutral"
    domains := r.domains.getD [] }

/-- The first text block of the message content, if any
(batch_processor.py lines 234-239). -/
def firstTextBlock : List ContentBlock → Option (Option RawThemes)
  | [] => none
  | .textBlock d :: _ => some d
  | .otherBlock :: rest => firstTextBlock rest

/-- `parse_themes` (batch_processor.py lines 216-273): reject empty content,
locate the first text block, decode it as JSON, then backfill missing
required fields with defaults. -/
def parseThemes (m : ClaudeMessage) : Except PyErr Themes :=
  if m.content.isEmpty then
    .error (.valueError "Message has no content")
  else
    match firstTextBlock m.content with
    | none => .error (.valueError "No text content found in message")
    | some none => .error (.valueError "Invalid JSON response from Claude")
    | some (some raw) => .ok (backfillThemes raw)

/-- The terminal disposition of one batch item, `result.result` in the result
stream (batch_processor.py lines 196-207). -/
inductive ItemResult where
  | succeeded (msg : ClaudeMessage)
  | errored
  | canceled
  | expired
  deriving DecidableEq, Repr

/-- One entry of `client.messages.batches.results(batch_id)`. -/
structure BatchItem where
  customId : String
  result : ItemResult
  deriving DecidableEq, Repr

/-- The batch processing status reported by
`client.messages.batches.retrieve` (batch_processor.py lines 160-214). -/
inductive BatchStatus where
  | inProgress
  | ended
  | canceled
  | expired
  deriving DecidableEq, Repr

/-- Python dict assignment `results[email_id] = v` on an insertion-ordered
dict represented as an association list. -/
def dictAssign (d : List (String × Themes)) (k : String) (v : Themes) :
    List (String × Themes) :=
  match d with
  | [] => [(k, v)]
  | (k', v') :: rest =>
      if k' = k then (k', v) :: rest else (k', v') :: dictAssign rest k v

/-- Python dict lookup `d[k]` as an option. -/
def dictLookup (d : List (String × Themes)) (k : String) : Option Themes :=
  match d with
  | [] => none
  | (k', v') :: rest => if k' = k then some v' else dictLookup rest k

/-- The payload stored for one result item (batch_processor.py lines
196-207): parsed themes when the item succeeded and its message parses,
otherwise the default empty payload. -/
def itemPayload (it : BatchItem) : Themes :=
  match it.result with
  | .succeeded msg =>
      match parseThemes msg with
      | .ok t => t
      | .error _ => emptyThemes
  | _ => emptyThemes

/-- `poll_batch_results` (batch_processor.py lines 128-214) at one poll:
while in progress it raises the transient retry condition; on `ended` it
builds the id-to-themes dict from the result stream; any other terminal
status raises a hard failure. -/
def pollBatchResults (status : BatchStatus) (stream : List BatchItem) :
    Except PyErr (List (String × Themes)) :=
  match status with
  | .inProgress => .error (.stillProcessing "Batch still processing")
  | .ended =>
      .ok (stream.foldl (fun acc it => dictAssign acc it.customId (itemPayload it)) [])
  | .canceled => .error (.batchFailed "Batch processing failed with status: canceled")
  | .expired => .error (.batchFailed "Batch processing failed with status: expired")

/-! ### Theme tag generation
Embedded from `src/services/theme_detection/prompt_template.py`.  The
`themes` argument of `generate_tags` is an arbitrary Python value at runtime
(the worker passes the keys of a dict, which are strings), so the embedding
works on a small dynamic value type with Python attribute semantics:
`.get` exists only on dicts. -/

/-- The Python values that flow into `generate_tags`: strings, lists of
strings, dicts, and None. -/
inductive PyVal where
  | str (s : String)
  | strList (xs : List String)
  | dict (entries : List (String × PyVal))
  | pyNone

/-- Python `value.get(key, default)`: defined on dicts, an `AttributeError`
on every other receiver (in particular `str`). -/
def pyGetAttr : PyVal → String → PyVal → Except PyErr PyVal
  | .dict es, k, dflt =>
      .ok (((es.find? (fun kv => kv.1 = k)).map Prod.snd).getD dflt)
  | .str _, _, _ => .error (.attributeError "str object has no attribute get")
  | .strList _, _, _ => .error (.attributeError "list object has no attribute get")
  | .pyNone, _, _ => .error (.attributeError "NoneType object has no attribute get")

/-- Python iteration over a value expected to be a list of strings. -/
def pyIterStrs : PyVal → Except PyErr (List String)
  | .strList xs => .ok xs
  | .str s => .ok (s.toList.map (fun c => String.mk [c]))
  | .dict es => .ok (es.map Prod.fst)
  | .pyNone => .error (.typeError "NoneType object is not iterable")

/-- Python `value.lower()` on a value expected to be a string. -/
def pyLowerVal : PyVal → Except PyErr String
  | .str s => .ok (pyLower s)
  | _ => .error (.attributeError "object has no attribute lower")

/-- A `\w` character of the ASCII range: letter, digit or underscore. -/
def isWordChar (c : Char) : Bool :=
  c.isAlphanum || c = '_'

/-- Fuel-driven worker for `collapseHyphenRuns`. -/
def collapseHyphenRunsF (fuel : Nat) (l : List Char) : List Char :=
  match fuel, l with
  | _, [] => []
  | 0, _ :: _ => []
  | f + 1, c :: rest =>
      if isPySpace c || c = '-' then
        '-' :: collapseHyphenRunsF f (rest.dropWhile (fun d => isPySpace d || d = '-'))
      else
        c :: collapseHyphenRunsF f rest

/-- Collapse each maximal run of hyphens and whitespace into one hyphen,
`re.sub(r"[-\s]+", "-", s)` (prompt_template.py line 174). -/
def collapseHyphenRuns (l : List Char) : List Char :=
  collapseHyphenRunsF l.length l

/-- `_normalize_tag` (prompt_template.py lines 161-177): lowercase and trim,
drop characters outside `[\w\s-]`, collapse hyphen/space runs to one hyphen,
strip leading and trailing hyphens. -/
def normalizeTag (text : String) : String :=
  let s1 := (pyStrip (pyLower text)).toList
  let s2 := s1.filter (fun c => isWordChar c || isPySpace c || c = '-')
  let s3 := collapseHyphenRuns s2
  ⟨(s3.dropWhile (· = '-')).reverse.dropWhile (· = '-') |>.reverse⟩

/-- Python `str.split()` with no separator: maximal runs of non-whitespace. -/
def pyWordsAux : List Char → List Char → List String
  | [], [] => []
  | [], w => [⟨w.reverse⟩]
  | c :: rest, w =>
      if isPySpace c then
        if w.isEmpty then pyWordsAux rest [] else ⟨w.reverse⟩ :: pyWordsAux rest []
      else pyWordsAux rest (c :: w)

/-- Python `s.split()`. -/
def pyWords (s : String) : List String :=
  pyWordsAux s.toList []

/-- The stop words of `_extract_action_tag` (prompt_template.py line 192). -/
def actionStopWords : List String :=
  ["the", "a", "an", "by", "with", "for", "to", "on", "in", "at", "of"]

/-- `_extract_action_tag` (prompt_template.py lines 180-197): first three
significant lowercase words joined by hyphens, else `_normalize_tag`. -/
def extractActionTag (text : String) : String :=
  let ws := pyWords (pyLower text)
  let tagWords := (ws.filter (fun w => w ∉ actionStopWords)).take 3
  if tagWords.isEmpty then normalizeTag text else String.intercalate "-" tagWords

/-- One tag record built by `generate_tags`
(`{"tag": ..., "tag_category": ..., "confidence": ...}`). -/
structure TagDict where
  tag : String
  category : String
  confidence : ℚ
  deriving DecidableEq, Repr

/-- `generate_tags` (prompt_template.py lines 108-158).  Every read of
`themes` goes through `.get`, so a non-dict argument raises `AttributeError`
at the first read. -/
def generateTags (themes : PyVal) (accountLabel : String) :
    Except PyErr (List TagDict) := do
  let topicsV ← pyGetAttr themes "explicit_topics" (.strList [])
  let topics ← pyIterStrs topicsV
  let topicTags := (topics.filter (fun t => t ≠ "")).map
    (fun t => TagDict.mk (normalizeTag t) "topic" (9 / 10))
  let interestsV ← pyGetAttr themes "implicit_interests" (.strList [])
  let interests ← pyIterStrs interestsV
  let interestTags := (interests.filter (fun t => t ≠ "")).map
    (fun t => TagDict.mk (normalizeTag t) "interest" (7 / 10))
  let relV ← pyGetAttr themes "relationship_context" (.str "")
  let rel ← pyLowerVal relV
  let relTags := if rel ≠ "" ∧ rel ≠ "unknown" then
      [TagDict.mk rel "relationship" (85 / 100)] else []
  let actionsV ← pyGetAttr themes "action_items" (.strList [])
  let actions ← pyIterStrs actionsV
  let actionTags := (actions.filter (fun t => t ≠ "")).map
    (fun t => TagDict.mk (extractActionTag t) "action" (8 / 10))
  let sentV ← pyGetAttr themes "sentiment" (.str "")
  let sent ← pyLowerVal sentV
  let sentTags := if sent ≠ "" then [TagDict.mk sent "sentiment" (9 / 10)] else []
  let domainsV ← pyGetAttr themes "domains" (.strList [])
  let domains ← pyIterStrs domainsV
  let domainTags := (domains.filter (fun t => t ≠ "")).map
    (fun t => TagDict.mk t "domain" (85 / 100))
  pure (topicTags ++ interestTags ++ relTags ++ actionTags ++ sentTags ++
    domainTags ++ [TagDict.mk accountLabel "account" 1])

/-! ### Gmail client batch fetch
Embedded from `src/integrations/gmail/client.py` lines 197-287 together with
the `wait_for_token` signature of `src/integrations/gmail/rate_limiter.py`
line 131 and the `with_retry` decorator of rate_limiter.py lines 197-228.
Besides its result, each fetch function reports how many provider batch
requests it issued. -/

/-- One parsed email dict as `_parse_message` returns it, reduced to the
fields the worker consumes. -/
structure EmailDict where
  gmailMessageId : String
  subject : String
  senderEmail : String
  date : ℕ
  deriving DecidableEq, Repr

/-- The parameter names `wait_for_token` accepts
(`def wait_for_token(self, timeout: float = 60.0)`, rate_limiter.py
line 131). -/
def waitForTokenParams : List String := ["timeout"]

/-- Python keyword-argument binding for a call to `wait_for_token`: a keyword
outside the accepted parameter list raises `TypeError` before the function
body runs; otherwise the call blocks on the bucket and returns.  The bucket
is assumed funded here, which only strengthens the reachability results. -/
def callWaitForToken (kwargs : List String) : Except PyErr Unit :=
  if kwargs.all (fun k => k ∈ waitForTokenParams) then .ok ()
  else .error (.typeError "wait_for_token got an unexpected keyword argument")

/-- `_fetch_batch_chunk` (client.py lines 237-287): its first statement is
`self.rate_limiter.wait_for_token(tokens=len(message_ids))`.  The batched
HTTP request is only issued after that call returns; with the `tokens`
keyword rejected, the request branch is unreachable, so its per-message
parsing is not modelled further. -/
def fetchBatchChunk (_ids : List String) : Except PyErr (List EmailDict) × ℕ :=
  match callWaitForToken ["tokens"] with
  | .error e => (.error e, 0)
  | .ok _ => (.ok [], 1)

/-- The chunk loop of `fetch_message_batch` (client.py lines 225-235),
accumulating parsed emails and the number of issued provider requests. -/
def fetchChunksLoop : List (List String) → List EmailDict → ℕ →
    Except PyErr (List EmailDict) × ℕ
  | [], acc, n => (.ok acc, n)
  | ch :: rest, acc, n =>
      match fetchBatchChunk ch with
      | (.error e, m) => (.error e, n + m)
      | (.ok es, m) => fetchChunksLoop rest (acc ++ es) (n + m)

/-- The body of `fetch_message_batch` (client.py lines 198-235): empty input
short-circuits to `[]`; otherwise the ids are processed in chunks of 50. -/
def fetchMessageBatchBody (ids : List String) :
    Except PyErr (List EmailDict) × ℕ :=
  if ids.isEmpty then (.ok [], 0)
  else fetchChunksLoop (pyChunks 50 ids) [] 0

/-- The error translation inside `with_retry` (rate_limiter.py lines
218-226): errors mentioning 429 or quota become `GmailRateLimitExceeded`. -/
def convertRetryErr (e : PyErr) : PyErr :=
  if "429".toList <:+: e.text.toList ∨ "quota".toList <:+: (pyLower e.text).toList then
    .rateLimited ("Gmail API rate limit: " ++ e.text)
  else e

/-- The `with_retry` decorator (rate_limiter.py lines 197-228) applied to a
deterministic body: up to five identical attempts, after which the last
(translated) exception is re-raised; issued requests accumulate over the
attempts. -/
def withRetry5 (f : Unit → Except PyErr α × ℕ) : Except PyErr α × ℕ :=
  match f () with
  | (.ok a, n) => (.ok a, n)
  | (.error e, n) => (.error (convertRetryErr e), 5 * n)

/-- `fetch_message_batch` (client.py lines 197-235), `with_retry` included. -/
def fetchMessageBatch (ids : List String) : Except PyErr (List EmailDict) × ℕ :=
  withRetry5 (fun _ => fetchMessageBatchBody ids)

/-! ### The worker task
Embedded from `src/worker/tasks.py` (`scan_gmail_task`).  The database
session, the Gmail provider and the Claude API are the environment; Celery
`update_state` calls touch no database state and are not modelled.  Every
`db.commit()` appends the current `progress_pct` of the job row to a commit
trace, which is what a poller of the job surface can observe. -/

/-- The `SyncJob` row fields the claims mention.  `completedAtSet` records
whether `completed_at` has been assigned. -/
structure JobRec where
  status : String
  phase : String
  progressPct : ℤ
  emailsProcessed : ℕ
  emailsTotal : Option ℕ
  errorMessage : Option String
  completedAtSet : Bool
  deriving DecidableEq, Repr

/-- The job row as created at tasks.py lines 122-130. -/
def initJob : JobRec :=
  { status := "running"
    phase := "contacts"
    progressPct := 0
    emailsProcessed := 0
    emailsTotal := none
    errorMessage := none
    completedAtSet := false }

/-- The mutable state of one task execution: the job row, the commit trace of
`progress_pct` values, the email table, and the Python locals `all_emails`
and `total_emails_fetched`; `nextId` supplies fresh UUIDs. -/
structure TaskState where
  job : JobRec
  committed : List ℤ
  db : List EmailRow
  allEmails : List EmailRow
  totalFetched : ℕ
  nextId : ℕ
  deriving DecidableEq, Repr

/-- `db.commit()`: the job row becomes visible to pollers with its current
`progress_pct`. -/
def commitJob (st : TaskState) : TaskState :=
  { st with committed := st.committed ++ [st.job.progressPct] }

/-- One Gmail account as the task sees it: its row id, its label, and the
successive message-id listings the provider returns for the task's queries
(`fetch_emails_chunked` pages; the listing after the last one is empty). -/
structure AccountEnv where
  id : ℕ
  label : String
  pages : List (List String)
  deriving DecidableEq, Repr

/-- The environment of one task execution: whether the user row exists, the
active accounts matching the requested labels, and the initial email table. -/
structure ScanEnv where
  userExists : Bool
  accounts : List AccountEnv
  initialDb : List EmailRow
  deriving DecidableEq, Repr

/-- `get_existing_email_count` (tasks.py lines 53-64). -/
def dbEmailCountFor (db : List EmailRow) (aid : ℕ) : ℕ :=
  (db.filter (fun r => r.accountId = aid)).length

/-- `get_last_processed_email_date` (tasks.py lines 37-50). -/
def dbLastDateFor (db : List EmailRow) (aid : ℕ) : Option ℕ :=
  ((db.filter (fun r => r.accountId = aid)).map (fun r => r.date)).max?

/-- The per-page progress formula of the emails phase (tasks.py lines
273-274): `min(40, int((i / len(accounts)) * 30 + (total_fetched / 10000) * 10))`. -/
def emailsPageProgress (i nAccounts totalFetched : ℕ) : ℤ :=
  min 40 (pyInt ((i : ℚ) / (nAccounts : ℚ) * 30 + (totalFetched : ℚ) / 10000 * 10))

/-- The per-batch progress formula of the themes phase (tasks.py line 397):
`int(40 + ((batch_idx + 1) / len(email_batches)) * 30)`. -/
def themesBatchProgress (batchIdx nBatches : ℕ) : ℤ :=
  pyInt ((40 : ℚ) + ((batchIdx : ℚ) + 1) / (nBatches : ℚ) * 30)

/-- Building one `Email` ORM object from a fetched dict (tasks.py lines
252-267), with a fresh surrogate id. -/
def emailRowOfDict (aid : ℕ) (freshId : ℕ) (d : EmailDict) : EmailRow :=
  { id := freshId
    accountId := aid
    gmailMessageId := d.gmailMessageId
    subject := d.subject
    senderEmail := d.senderEmail
    date := d.date }

/-- The body run for one successfully fetched page (tasks.py lines 252-330):
build `Email` objects, bump the counters, commit the progress update, then
upsert the page with insert-or-ignore and commit again. -/
def processPage (accIdx nAccounts : ℕ) (acct : AccountEnv)
    (dicts : List EmailDict) (st : TaskState) : TaskState :=
  let rows := dicts.enum.map (fun p => emailRowOfDict acct.id (st.nextId + p.1) p.2)
  let st := { st with
    allEmails := st.allEmails ++ rows
    nextId := st.nextId + rows.length
    totalFetched := st.totalFetched + dicts.length }
  let prog := emailsPageProgress accIdx nAccounts st.totalFetched
  let st := { st with job :=
    { st.job with progressPct := prog, emailsProcessed := st.totalFetched } }
  let st := commitJob st
  let st := { st with db := insertBatch st.db rows }
  commitJob st

/-- The pagination loop for one account (tasks.py lines 227-337): stop on an
empty listing, otherwise batch-fetch the page, process it, and continue while
a next-page token exists. -/
def runPages (accIdx nAccounts : ℕ) (acct : AccountEnv)
    (pages : List (List String)) (st : TaskState) :
    Except PyErr Unit × TaskState :=
  match pages with
  | [] => (.ok (), st)
  | ids :: rest =>
      if ids.isEmpty then (.ok (), st)
      else
        match fetchMessageBatch ids with
        | (.error e, _) => (.error e, st)
        | (.ok dicts, _) =>
            let st := processPage accIdx nAccounts acct dicts st
            if rest.isEmpty then (.ok (), st)
            else runPages accIdx nAccounts acct rest st

/-- The account loop of the emails phase (tasks.py lines 192-337), including
the resume computation whose only effect is the provider query. -/
def runAccounts (i nAccounts : ℕ) (accts : List AccountEnv) (st : TaskState) :
    Except PyErr Unit × TaskState :=
  match accts with
  | [] => (.ok (), st)
  | a :: rest =>
      let _existingCount := dbEmailCountFor st.db a.id
      let _gmailQuery := (dbLastDateFor st.db a.id).map
        (fun d => "after:" ++ toString d)
      match runPages i nAccounts a a.pages st with
      | (.error e, st') => (.error e, st')
      | (.ok _, st') => runAccounts (i + 1) nAccounts rest st'

/-- `submit_batch` as invoked by `process_emails_sync`
(batch_processor.py lines 36-121): size checks, then one request per email
keyed by `custom_id = str(email.id)`.  The poll result is a dict over exactly
these keys, so the scan task model keeps the key list. -/
def submitBatchKeys (batch : List EmailRow) : Except PyErr (List String) :=
  if batch.length > 100 then .error (.valueError "Batch size exceeds limit")
  else if batch.isEmpty then .error (.valueError "Cannot submit empty batch")
  else .ok (batch.map (fun e => Nat.repr e.id))

/-- The inner loop `for email, themes in zip(email_batch, batch_results)`
(tasks.py lines 367-392): iterating the results dict binds `themes` to a key
string; a falsy (empty) string is skipped, otherwise `generate_tags` is
called on the string.  The `EmailTag` objects added to the session on the
success path carry no job state and are not tracked. -/
def zipThemesLoop (accounts : List AccountEnv) :
    List (EmailRow × String) → TaskState → Except PyErr Unit × TaskState
  | [], st => (.ok (), st)
  | (em, themesKey) :: rest, st =>
      if themesKey = "" then zipThemesLoop accounts rest st
      else
        let accountLabel :=
          (((accounts.find? (fun a => a.id = em.accountId)).map
            (fun a => a.label)).getD "unknown")
        match generateTags (.str themesKey) accountLabel with
        | .error e => (.error e, st)
        | .ok _tags => zipThemesLoop accounts rest st

/-- The themes-phase batch loop (tasks.py lines 357-405): submit each batch,
walk the zipped results, commit the tags, then commit the batch progress. -/
def runThemesBatches (accounts : List AccountEnv) (nBatches : ℕ) :
    List (ℕ × List EmailRow) → TaskState → Except PyErr Unit × TaskState
  | [], st => (.ok (), st)
  | (idx, batch) :: rest, st =>
      match submitBatchKeys batch with
      | .error e => (.error e, st)
      | .ok keys =>
          match zipThemesLoop accounts (batch.zip keys) st with
          | (.error e, st') => (.error e, st')
          | (.ok _, st') =>
              let st' := commitJob st'
              let st' := commitJob { st' with job :=
                { st'.job with progressPct := themesBatchProgress idx nBatches } }
              runThemesBatches accounts nBatches rest st'

/-- The terminal success block (tasks.py lines 479-501).  It is part of the
source but unreachable: the vault phase raises before it (see `scanBody`). -/
def completionBlock (st : TaskState) : TaskState :=
  commitJob { st with job := { st.job with
    status := "completed"
    phase := "completed"
    progressPct := 100
    completedAtSet := true } }

/-- The `try` block of `scan_gmail_task` (tasks.py lines 120-501): create the
job row, check user and accounts, run the emails phase, the themes phase and
the vault phase.  The vault phase reads the local variable `merged_contacts`
at line 428, which no statement of the function ever assigns, so Python
raises `NameError` there; the note loops and the completion block behind it
are unreachable. -/
def scanBody (env : ScanEnv) : Except PyErr Unit × TaskState :=
  let st : TaskState :=
    { job := initJob, committed := [], db := env.initialDb
      allEmails := [], totalFetched := 0, nextId := 0 }
  let st := commitJob st
  if !env.userExists then (.error (.valueError "User not found"), st)
  else if env.accounts.isEmpty then
    (.error (.valueError "No active accounts found"), st)
  else
    let st := commitJob { st with job :=
      { st.job with phase := "emails", progressPct := 15 } }
    match runAccounts 0 env.accounts.length env.accounts st with
    | (.error e, st) => (.error e, st)
    | (.ok _, st) =>
        let st := commitJob { st with job :=
          { st.job with emailsTotal := some st.allEmails.length } }
        let st := commitJob { st with job :=
          { st.job with phase := "themes", progressPct := 40 } }
        let batches := pyChunks 100 st.allEmails
        match runThemesBatches env.accounts batches.length batches.enum st with
        | (.error e, st) => (.error e, st)
        | (.ok _, st) =>
            let st := commitJob { st with job :=
              { st.job with phase := "vault", progressPct := 70 } }
            (.error (.nameError "name merged_contacts is not defined"), st)

/-- `scan_gmail_task` (tasks.py lines 85-516): run the body; on any exception
the handler at lines 503-512 marks the job failed with the exception text and
a completion timestamp, commits, and re-raises the same exception. -/
def scanGmailTask (env : ScanEnv) : Except PyErr Unit × TaskState :=
  match scanBody env with
  | (.ok r, st) => (.ok r, st)
  | (.error e, st) =>
      let st := commitJob { st with job := { st.job with
        status := "failed"
        errorMessage := some e.text
        completedAtSet := true } }
      (.error e, st)

/-- The sequence of `progress_pct` values committed to the job row over one
execution, in commit order. -/
def scanTrace (env : ScanEnv) : List ℤ :=
  (scanGmailTask env).2.committed

/-- Whether an `Except` result is an exception. -/
def isErr : Except PyErr α → Bool
  | .error _ => true
  | .ok _ => false

/-- Whether the first message-id listing of an account is non-empty: exactly
when the pagination loop calls `fetch_message_batch` on a non-empty list. -/
def firstListingNonempty (pages : List (List String)) : Bool :=
  match pages with
  | [] => false
  | p :: _ => !p.isEmpty

/-- The TypeError Python raises for the `tokens=` keyword at client.py
line 252. -/
def tokensKwErr : PyErr :=
  .typeError "wait_for_token got an unexpected keyword argument"

/-- A concrete environment whose single account lists one message id. -/
def oneMessageEnv : ScanEnv :=
  { userExists := true
    accounts := [{ id := 1, label := "personal", pages := [["m1"]] }]
    initialDb := [] }

/-- A concrete environment whose single account lists no messages. -/
def emptyListingEnv : ScanEnv :=
  { userExists := true
    accounts := [{ id := 1, label := "personal", pages := [] }]
    initialDb := [] }

/-- The key list of an insertion-ordered group association list. -/
def groupKeys (gs : List (String × List RawContact)) : List String :=
  gs.map Prod.fst

/-- Look up one group by its normalized email key. -/
def lookupGroup : List (String × List RawContact) → String → List RawContact
  | [], _ => []
  | (k, ms) :: rest, e => if k = e then ms else lookupGroup rest e

/-- The two-account sample of the specification: the same logical contact
seen from acct1 and acct2. -/
def sampleContacts : List RawContact :=
  [⟨some "a@x.com", some "A", none, some "acct1", some 3, some 1⟩,
   ⟨some "A@X.com ", some "A Full", none, some "acct2", some 2, some 2⟩]

/-- A group whose most recent record carries no name at all. -/
def newestNamelessGroup : List RawContact :=
  [⟨some "a@x.com", none, none, some "acct1", none, some 2⟩,
   ⟨some "a@x.com", some "Bob", none, some "acct2", none, some 1⟩]

/-- A group with distinct timestamps and non-empty names throughout. -/
def namedTimestampGroup : List RawContact :=
  [⟨some "a@x.com", some " Al ", none, some "acct1", none, some 1⟩,
   ⟨some "a@x.com", some "Bea", none, some "acct2", none, some 2⟩]

/-! ## Theorems -/

/-! ### Rate limiter claims -/

lemma acquire_success (cfg : LimiterCfg) (n : ℕ) (now : ℚ) (s : BucketState)
    (h : (n : ℚ) ≤ (refillTokens cfg now s).tokens) :
    acquire cfg n now s = (true, ⟨(refillTokens cfg now s).tokens - n, now⟩) := by
  simp only [acquire, h, if_pos]
  rfl

lemma acquire_failure (cfg : LimiterCfg) (n : ℕ) (now : ℚ) (s : BucketState)
    (h : ¬ (n : ℚ) ≤ (refillTokens cfg now s).tokens) :
    acquire cfg n now s = (false, refillTokens cfg now s) := by
  simp only [acquire, h, if_neg, not_false_iff]

lemma refill_noElapsed (cfg : LimiterCfg) (t : ℚ) (x : ℚ)
    (hx : x ≤ (cfg.maxTokens : ℚ)) :
    refillTokens cfg t ⟨x, t⟩ = ⟨x, t⟩ := by
  simp only [refillTokens]
  congr 1
  rw [sub_self, zero_mul, add_zero, min_eq_left hx]

lemma acquireRepeat_full (cfg : LimiterCfg) (t0 : ℚ) :
    ∀ k, k ≤ cfg.maxTokens →
      acquireRepeat cfg t0 ⟨(cfg.maxTokens : ℚ), t0⟩ k =
        (true, ⟨(cfg.maxTokens : ℚ) - k, t0⟩) := by
  intro k
  induction k with
  | zero => intro _; simp [acquireRepeat]
  | succ k ih =>
      intro hk
      have hk' : k ≤ cfg.maxTokens := Nat.le_of_succ_le hk
      have hcast : (k : ℚ) + 1 ≤ (cfg.maxTokens : ℚ) := by exact_mod_cast hk
      have hle : (cfg.maxTokens : ℚ) - k ≤ (cfg.maxTokens : ℚ) := by
        have : (0 : ℚ) ≤ (k : ℚ) := Nat.cast_nonneg k
        linarith
      have hrefill := refill_noElapsed cfg t0 ((cfg.maxTokens : ℚ) - k) hle
      have hone : ((1 : ℕ) : ℚ) ≤ (refillTokens cfg t0 ⟨(cfg.maxTokens : ℚ) - k, t0⟩).tokens := by
        rw [hrefill]
        push_cast
        linarith
      simp only [acquireRepeat, ih hk', acquire_success cfg 1 t0 _ hone, hrefill,
        Bool.and_self, Prod.mk.injEq, BucketState.mk.injEq]
      refine ⟨trivial, ?_, trivial⟩
      push_cast
      ring

/-- C4: token-bucket semantics of `acquire`: each call refills the stored
count to `min(max_tokens, tokens + elapsed * refill_rate)` and advances the
stored timestamp to now, succeeds iff at least `n` tokens are then available,
consuming exactly `n` on success and nothing on failure; and from a full
bucket with no elapsed time, `max_tokens` consecutive `acquire(1)` calls
succeed, the next fails, and after waiting `1 / refill_rate` seconds exactly
one more `acquire(1)` succeeds. -/
theorem c4_token_bucket (cfg : LimiterCfg) (t0 : ℚ)
    (hr : 0 < cfg.refillRate) (hm : 1 ≤ cfg.maxTokens) :
    (∀ (n : ℕ) (now : ℚ) (s : BucketState),
      (refillTokens cfg now s).tokens =
        min (s.tokens + (now - s.lastRefill) * cfg.refillRate) (cfg.maxTokens : ℚ) ∧
      ((acquire cfg n now s).1 = true ↔ (n : ℚ) ≤ (refillTokens cfg now s).tokens) ∧
      (acquire cfg n now s).2.tokens =
        (refillTokens cfg now s).tokens -
          (if (acquire cfg n now s).1 then (n : ℚ) else 0) ∧
      (acquire cfg n now s).2.lastRefill = now) ∧
    (∀ k, k ≤ cfg.maxTokens →
      (acquireRepeat cfg t0 ⟨(cfg.maxTokens : ℚ), t0⟩ k).1 = true) ∧
    (acquire cfg 1 t0
      (acquireRepeat cfg t0 ⟨(cfg.maxTokens : ℚ), t0⟩ cfg.maxTokens).2).1 = false ∧
    (acquire cfg 1 (t0 + 1 / cfg.refillRate)
      (acquire cfg 1 t0
        (acquireRepeat cfg t0 ⟨(cfg.maxTokens : ℚ), t0⟩ cfg.maxTokens).2).2).1 = true ∧
    (acquire cfg 1 (t0 + 1 / cfg.refillRate)
      (acquire cfg 1 (t0 + 1 / cfg.refillRate)
        (acquire cfg 1 t0
          (acquireRepeat cfg t0 ⟨(cfg.maxTokens : ℚ), t0⟩ cfg.maxTokens).2).2).2).1 =
      false := by
  have hfull := acquireRepeat_full cfg t0 cfg.maxTokens le_rfl
  have hsub : (cfg.maxTokens : ℚ) - (cfg.maxTokens : ℚ) = 0 := by ring
  have hmax0 : (0 : ℚ) ≤ (cfg.maxTokens : ℚ) := Nat.cast_nonneg _
  have hmax1 : (1 : ℚ) ≤ (cfg.maxTokens : ℚ) := by exact_mod_cast hm
  -- the state after exhausting the bucket
  have hrefillA := refill_noElapsed cfg t0 (0 : ℚ) hmax0
  have hfailTok : ¬ ((1 : ℕ) : ℚ) ≤ (refillTokens cfg t0 ⟨(0 : ℚ), t0⟩).tokens := by
    rw [hrefillA]
    push_cast
    norm_num
  have hfail := acquire_failure cfg 1 t0 ⟨(0 : ℚ), t0⟩ hfailTok
  -- refilling exactly one token after waiting 1 / refill_rate
  have hrefillB : refillTokens cfg (t0 + 1 / cfg.refillRate) ⟨(0 : ℚ), t0⟩ =
      ⟨(1 : ℚ), t0 + 1 / cfg.refillRate⟩ := by
    simp only [refillTokens]
    congr 1
    have h1 : (0 : ℚ) + (t0 + 1 / cfg.refillRate - t0) * cfg.refillRate = 1 := by
      field_simp
      ring
    rw [h1, min_eq_left hmax1]
  have hsuccTok : ((1 : ℕ) : ℚ) ≤
      (refillTokens cfg (t0 + 1 / cfg.refillRate) ⟨(0 : ℚ), t0⟩).tokens := by
    rw [hrefillB]
    push_cast
    norm_num
  have hsucc := acquire_success cfg 1 (t0 + 1 / cfg.refillRate) ⟨(0 : ℚ), t0⟩ hsuccTok
  have hzeroAgain : refillTokens cfg (t0 + 1 / cfg.refillRate)
      ⟨(0 : ℚ), t0 + 1 / cfg.refillRate⟩ = ⟨(0 : ℚ), t0 + 1 / cfg.refillRate⟩ :=
    refill_noElapsed cfg (t0 + 1 / cfg.refillRate) 0 hmax0
  have hfailTok2 : ¬ ((1 : ℕ) : ℚ) ≤ (refillTokens cfg (t0 + 1 / cfg.refillRate)
      ⟨(0 : ℚ), t0 + 1 / cfg.refillRate⟩).tokens := by
    rw [hzeroAgain]
    push_cast
    norm_num
  have hfail2 := acquire_failure cfg 1 (t0 + 1 / cfg.refillRate)
    ⟨(0 : ℚ), t0 + 1 / cfg.refillRate⟩ hfailTok2
  have hA : (acquireRepeat cfg t0 ⟨(cfg.maxTokens : ℚ), t0⟩ cfg.maxTokens).2 =
      ⟨(0 : ℚ), t0⟩ := by
    rw [hfull]
    simp only [hsub]
  have hB : (acquire cfg 1 t0 ⟨(0 : ℚ), t0⟩).2 = ⟨(0 : ℚ), t0⟩ := by
    rw [hfail, hrefillA]
  have hC : (acquire cfg 1 (t0 + 1 / cfg.refillRate) ⟨(0 : ℚ), t0⟩).2 =
      ⟨(0 : ℚ), t0 + 1 / cfg.refillRate⟩ := by
    rw [hsucc, hrefillB]
    simp only [BucketState.mk.injEq]
    norm_num
  refine ⟨?_, ?_, ?_, ?_, ?_⟩
  · intro n now s
    refine ⟨rfl, ?_, ?_, ?_⟩ <;>
      by_cases h : (n : ℚ) ≤ (refillTokens cfg now s).tokens
    · rw [acquire_success cfg n now s h]
      simpa using h
    · rw [acquire_failure cfg n now s h]
      simpa using h
    · rw [acquire_success cfg n now s h]
      simp
    · rw [acquire_failure cfg n now s h]
      simp
    · rw [acquire_success cfg n now s h]
    · rw [acquire_failure cfg n now s h]
      simp [refillTokens]
  · intro k hk
    rw [acquireRepeat_full cfg t0 k hk]
  · rw [hA, hfail]
  · rw [hA, hB, hsucc]
  · rw [hA, hB, hC, hfail2]

/-- Closed witness for `c4_token_bucket` at `max_tokens = 3`,
`refill_rate = 2`, `t0 = 0`. -/
theorem c4_token_bucket_witness :
    (0 : ℚ) < (LimiterCfg.mk 3 2).refillRate ∧ 1 ≤ (LimiterCfg.mk 3 2).maxTokens ∧
    (acquireRepeat (LimiterCfg.mk 3 2) 0 ⟨((LimiterCfg.mk 3 2).maxTokens : ℚ), 0⟩ 3).1 =
      true ∧
    (acquire (LimiterCfg.mk 3 2) 1 0
      (acquireRepeat (LimiterCfg.mk 3 2) 0
        ⟨((LimiterCfg.mk 3 2).maxTokens : ℚ), 0⟩ 3).2).1 = false :=
  ⟨by decide, by decide,
    (c4_token_bucket (LimiterCfg.mk 3 2) 0 (by decide) (by decide)).2.1 3 (by decide),
    (c4_token_bucket (LimiterCfg.mk 3 2) 0 (by decide) (by decide)).2.2.1⟩

/-- C3 counterexample: at `refill_rate = 20` the sleep between consecutive
failed acquire attempts is `1/20 = 0.05` seconds, strictly below the 0.1
seconds the claim asserts as a lower bound. -/
theorem c3_counterexample_sleep_below_tenth :
    sleepTime 20 = 1 / 20 ∧ ¬ ((1 : ℚ) / 10 ≤ sleepTime 20) ∧
    waitForTokenSleeps 20 [false, false, true] = [1 / 20, 1 / 20] := by
  refine ⟨by decide, by decide, by decide⟩

/-- C3 (amended): the sleep between consecutive failed acquire attempts in
`wait_for_token` is `min(1 / refill_rate, 0.1)`: it is derived from the
refill rate, is at most 0.1 seconds (never idler than about 10 Hz), equals
0.1 seconds exactly when `refill_rate` is at most 10, equals
`1 / refill_rate` when the rate is at least 10, and every sleep of a polling
run has this length. -/
theorem c3_wait_poll_interval (r : ℚ) (hr : 0 < r) :
    sleepTime r ≤ 1 / 10 ∧
    (r ≤ 10 → sleepTime r = 1 / 10) ∧
    (10 ≤ r → sleepTime r = 1 / r) ∧
    ∀ outcomes : List Bool, ∀ s ∈ waitForTokenSleeps r outcomes, s = sleepTime r := by
  refine ⟨min_le_right _ _, ?_, ?_, ?_⟩
  · intro h
    have : (1 : ℚ) / 10 ≤ 1 / r := one_div_le_one_div_of_le hr h
    exact min_eq_right this
  · intro h
    have : (1 : ℚ) / r ≤ 1 / 10 := one_div_le_one_div_of_le (by norm_num) h
    exact min_eq_left this
  · intro outcomes
    induction outcomes with
    | nil => intro s hs; simp [waitForTokenSleeps] at hs
    | cons ok rest ih =>
        intro s hs
        by_cases hok : ok
        · simp [waitForTokenSleeps, hok] at hs
        · simp only [waitForTokenSleeps, hok, Bool.false_eq_true, if_false,
            List.mem_cons] at hs
          rcases hs with h | h
          · exact h
          · exact ih s h

/-- Closed witness for `c3_wait_poll_interval` at `refill_rate = 4`. -/
theorem c3_wait_poll_interval_witness :
    (0 : ℚ) < 4 ∧ (4 : ℚ) ≤ 10 ∧ sleepTime 4 = 1 / 10 :=
  ⟨by decide, by decide, (c3_wait_poll_interval 4 (by decide)).2.1 (by decide)⟩

/-! ### Email upsert idempotence -/

lemma keyMem_insertIgnore (db : List EmailRow) (r : EmailRow) (k : ℕ × String) :
    (∃ x ∈ insertIgnore db r, x.key = k) ↔ (∃ x ∈ db, x.key = k) ∨ r.key = k := by
  unfold insertIgnore
  by_cases h : db.any (fun x => x.key = r.key) = true
  · rw [if_pos h]
    constructor
    · intro hx; exact Or.inl hx
    · rintro (hx | hk)
      · exact hx
      · rw [List.any_eq_true] at h
        rcases h with ⟨x, hx, hxk⟩
        exact ⟨x, hx, by rw [of_decide_eq_true hxk, hk]⟩
  · rw [if_neg h]
    constructor
    · rintro ⟨x, hx, hk⟩
      rcases List.mem_append.mp hx with hx | hx
      · exact Or.inl ⟨x, hx, hk⟩
      · rw [List.mem_singleton] at hx
        subst hx
        exact Or.inr hk
    · rintro (⟨x, hx, hk⟩ | hk)
      · exact ⟨x, List.mem_append.mpr (Or.inl hx), hk⟩
      · exact ⟨r, List.mem_append.mpr (Or.inr (List.mem_singleton.mpr rfl)), hk⟩

lemma keyMem_insertBatch (b : List EmailRow) :
    ∀ (db : List EmailRow) (k : ℕ × String),
      (∃ x ∈ insertBatch db b, x.key = k) ↔
        (∃ x ∈ db, x.key = k) ∨ ∃ r ∈ b, r.key = k := by
  induction b with
  | nil => intro db k; simp [insertBatch]
  | cons r rest ih =>
      intro db k
      show (∃ x ∈ insertBatch (insertIgnore db r) rest, x.key = k) ↔ _
      rw [ih (insertIgnore db r) k, keyMem_insertIgnore db r k]
      constructor
      · rintro ((h | h) | h)
        · exact Or.inl h
        · exact Or.inr ⟨r, List.mem_cons_self r rest, h⟩
        · rcases h with ⟨x, hx, hk⟩
          exact Or.inr ⟨x, List.mem_cons_of_mem r hx, hk⟩
      · rintro (h | ⟨x, hx, hk⟩)
        · exact Or.inl (Or.inl h)
        · rcases List.mem_cons.mp hx with hx | hx
          · subst hx; exact Or.inl (Or.inr hk)
          · exact Or.inr ⟨x, hx, hk⟩

lemma insertIgnore_of_keyMem (db : List EmailRow) (r : EmailRow)
    (h : ∃ x ∈ db, x.key = r.key) : insertIgnore db r = db := by
  unfold insertIgnore
  rw [if_pos]
  rw [List.any_eq_true]
  rcases h with ⟨x, hx, hk⟩
  exact ⟨x, hx, decide_eq_true hk⟩

lemma insertBatch_of_keyMem (b : List EmailRow) :
    ∀ db : List EmailRow, (∀ r ∈ b, ∃ x ∈ db, x.key = r.key) →
      insertBatch db b = db := by
  induction b with
  | nil => intro db _; rfl
  | cons r rest ih =>
      intro db h
      show insertBatch (insertIgnore db r) rest = db
      rw [insertIgnore_of_keyMem db r (h r (List.mem_cons_self r rest))]
      exact ih db (fun x hx => h x (List.mem_cons_of_mem r hx))

/-- C8: the emails phase persists fetched records with
`INSERT ... ON CONFLICT DO NOTHING` keyed by `(account_id, gmail_message_id)`,
so writing the same fetched records a second time (as the freshly rebuilt
rows `b2` with the same natural keys) leaves the stored set exactly as after
the first write. -/
theorem c8_emails_upsert_idempotent (db b1 b2 : List EmailRow)
    (h : b1.map EmailRow.key = b2.map EmailRow.key) :
    insertBatch (insertBatch db b1) b2 = insertBatch db b1 := by
  apply insertBatch_of_keyMem
  intro r hr
  have hkey : r.key ∈ b2.map EmailRow.key := List.mem_map_of_mem EmailRow.key hr
  rw [← h] at hkey
  rcases List.mem_map.mp hkey with ⟨x, hx, hk⟩
  have : ∃ y ∈ insertBatch db b1, y.key = x.key :=
    (keyMem_insertBatch b1 db x.key).mpr (Or.inr ⟨x, hx, rfl⟩)
  rcases this with ⟨y, hy, hyk⟩
  exact ⟨y, hy, by rw [hyk, hk]⟩

/-- Closed witness for `c8_emails_upsert_idempotent`: re-inserting the same
two fetched messages (rebuilt with fresh surrogate ids) changes nothing. -/
theorem c8_emails_upsert_idempotent_witness :
    ([⟨0, 1, "m1", "s", "a@x", 5⟩, ⟨1, 1, "m2", "t", "b@x", 6⟩] :
        List EmailRow).map EmailRow.key =
      ([⟨7, 1, "m1", "s", "a@x", 5⟩, ⟨8, 1, "m2", "t", "b@x", 6⟩] :
        List EmailRow).map EmailRow.key ∧
    insertBatch
        (insertBatch [] [⟨0, 1, "m1", "s", "a@x", 5⟩, ⟨1, 1, "m2", "t", "b@x", 6⟩])
        [⟨7, 1, "m1", "s", "a@x", 5⟩, ⟨8, 1, "m2", "t", "b@x", 6⟩] =
      insertBatch [] [⟨0, 1, "m1", "s", "a@x", 5⟩, ⟨1, 1, "m2", "t", "b@x", 6⟩] :=
  ⟨by decide,
    c8_emails_upsert_idempotent []
      [⟨0, 1, "m1", "s", "a@x", 5⟩, ⟨1, 1, "m2", "t", "b@x", 6⟩]
      [⟨7, 1, "m1", "s", "a@x", 5⟩, ⟨8, 1, "m2", "t", "b@x", 6⟩] (by decide)⟩

/-! ### Batch enrichment totality -/

lemma dictAssign_of_not_mem (d : List (String × Themes)) (k : String) (v : Themes)
    (h : k ∉ d.map Prod.fst) : dictAssign d k v = d ++ [(k, v)] := by
  induction d with
  | nil => rfl
  | cons p rest ih =>
      simp only [List.map_cons, List.mem_cons, not_or] at h
      show (if p.1 = k then (p.1, v) :: rest else (p.1, p.2) :: dictAssign rest k v) = _
      rw [if_neg (fun hk => h.1 hk.symm), ih h.2]
      rfl

lemma pollFold_eq_map (stream : List BatchItem) :
    ∀ acc : List (String × Themes),
      (∀ it ∈ stream, it.customId ∉ acc.map Prod.fst) →
      (stream.map BatchItem.customId).Nodup →
      stream.foldl (fun a it => dictAssign a it.customId (itemPayload it)) acc =
        acc ++ stream.map (fun it => (it.customId, itemPayload it)) := by
  induction stream with
  | nil => intro acc _ _; simp
  | cons it rest ih =>
      intro acc hdisj hnd
      have hnotacc : it.customId ∉ acc.map Prod.fst :=
        hdisj it (List.mem_cons_self it rest)
      rw [List.map_cons, List.nodup_cons] at hnd
      show rest.foldl _ (dictAssign acc it.customId (itemPayload it)) = _
      rw [dictAssign_of_not_mem acc it.customId (itemPayload it) hnotacc]
      rw [ih (acc ++ [(it.customId, itemPayload it)]) ?_ hnd.2]
      · simp
      · intro x hx
        simp only [List.map_append, List.map_cons, List.map_nil, List.mem_append,
          List.mem_singleton, not_or]
        refine ⟨fun hmem => hdisj x (List.mem_cons_of_mem it hx) hmem, ?_⟩
        intro heq
        exact hnd.1 (heq ▸ List.mem_map_of_mem BatchItem.customId hx)

lemma dictLookup_append_of_not_mem (d1 d2 : List (String × Themes)) (k : String)
    (h : k ∉ d1.map Prod.fst) : dictLookup (d1 ++ d2) k = dictLookup d2 k := by
  induction d1 with
  | nil => rfl
  | cons p rest ih =>
      simp only [List.map_cons, List.mem_cons, not_or] at h
      show (if p.1 = k then some p.2 else dictLookup (rest ++ d2) k) = _
      rw [if_neg (fun hk => h.1 hk.symm), ih h.2]

lemma dictLookup_map_self (stream : List BatchItem)
    (hnd : (stream.map BatchItem.customId).Nodup) :
    ∀ it ∈ stream,
      dictLookup (stream.map (fun it => (it.customId, itemPayload it))) it.customId =
        some (itemPayload it) := by
  induction stream with
  | nil => intro it hit; simp at hit
  | cons hd rest ih =>
      rw [List.map_cons, List.nodup_cons] at hnd
      intro it hit
      rcases List.mem_cons.mp hit with hit | hit
      · subst hit
        show (if it.customId = it.customId then _ else _) = _
        rw [if_pos rfl]
      · show (if hd.customId = it.customId then some (itemPayload hd) else _) = _
        rw [if_neg, ih hnd.2 it hit]
        intro heq
        exact hnd.1 (heq ▸ List.mem_map_of_mem BatchItem.customId hit)

/-- C7: once the batch status is the terminal "ended", `poll_batch_results`
returns a mapping whose keys are exactly the submitted correlation ids (in
particular no id is omitted and the batch is not aborted): each item whose
processing succeeded and whose message parses maps to its parsed themes, and
each item whose processing failed or whose message fails to parse maps to the
default empty payload (empty lists, relationship "unknown", sentiment
"neutral"). -/
theorem c7_poll_results_total (stream : List BatchItem) (submittedIds : List String)
    (hids : stream.map BatchItem.customId = submittedIds)
    (hnd : submittedIds.Nodup) :
    pollBatchResults .ended stream =
      .ok (stream.map (fun it => (it.customId, itemPayload it))) ∧
    (stream.map (fun it => (it.customId, itemPayload it))).map Prod.fst =
      submittedIds ∧
    (∀ it ∈ stream,
      dictLookup (stream.map (fun it => (it.customId, itemPayload it)))
          it.customId = some (itemPayload it)) ∧
    (∀ it ∈ stream, ∀ msg, it.result = .succeeded msg →
      (∀ t, parseThemes msg = .ok t → itemPayload it = t) ∧
      (∀ e, parseThemes msg = .error e → itemPayload it = emptyThemes)) ∧
    (∀ it ∈ stream, (it.result = .errored ∨ it.result = .canceled ∨
      it.result = .expired) → itemPayload it = emptyThemes) := by
  subst hids
  refine ⟨?_, ?_, dictLookup_map_self stream hnd, ?_, ?_⟩
  · show Except.ok (stream.foldl _ []) = _
    rw [pollFold_eq_map stream [] (by intro it _ h; simp at h) hnd]
    rfl
  · simp
  · intro it _ msg hmsg
    constructor
    · intro t ht
      simp [itemPayload, hmsg, ht]
    · intro e he
      simp [itemPayload, hmsg, he]
  · intro it _ hres
    rcases hres with h | h | h <;> simp [itemPayload, h]

/-- Closed witness for `c7_poll_results_total`: a two-item batch where "m1"
succeeds with a parseable payload and "m2" errored. -/
theorem c7_poll_results_total_witness :
    ([{ customId := "m1", result := .succeeded { content := [.textBlock (some
        { explicitTopics := some ["budget"], implicitInterests := none,
          relationshipContext := some "colleague", actionItems := none,
          sentiment := none, domains := none })] } },
      { customId := "m2", result := .errored }] :
        List BatchItem).map BatchItem.customId = ["m1", "m2"] ∧
    (["m1", "m2"] : List String).Nodup ∧
    pollBatchResults .ended
      [{ customId := "m1", result := .succeeded { content := [.textBlock (some
          { explicitTopics := some ["budget"], implicitInterests := none,
            relationshipContext := some "colleague", actionItems := none,
            sentiment := none, domains := none })] } },
        { customId := "m2", result := .errored }] =
      .ok [("m1", Themes.mk ["budget"] [] "colleague" [] "neutral" []),
        ("m2", emptyThemes)] :=
  ⟨by decide, by decide, by
    have h := (c7_poll_results_total
      [{ customId := "m1", result := .succeeded { content := [.textBlock (some
          { explicitTopics := some ["budget"], implicitInterests := none,
            relationshipContext := some "colleague", actionItems := none,
            sentiment := none, domains := none })] } },
        { customId := "m2", result := .errored }]
      ["m1", "m2"] (by decide) (by decide)).1
    rw [h]
    decide⟩

/-! ### Contact merger: grouping -/

lemma firstSeenDedupF_irrel :
    ∀ (f1 f2 : ℕ) (l : List String), l.length ≤ f1 → l.length ≤ f2 →
      firstSeenDedupF f1 l = firstSeenDedupF f2 l := by
  intro f1
  induction f1 with
  | zero =>
      intro f2 l h1 _
      cases l with
      | nil => cases f2 <;> rfl
      | cons x xs => simp at h1
  | succ f ih =>
      intro f2 l h1 h2
      cases l with
      | nil => cases f2 <;> rfl
      | cons x xs =>
          cases f2 with
          | zero => simp at h2
          | succ g =>
              show x :: firstSeenDedupF f (xs.filter (fun y => y ≠ x)) =
                x :: firstSeenDedupF g (xs.filter (fun y => y ≠ x))
              have hf : (xs.filter (fun y => y ≠ x)).length ≤ f :=
                le_trans (List.length_filter_le _ _) (Nat.le_of_succ_le_succ h1)
              have hg : (xs.filter (fun y => y ≠ x)).length ≤ g :=
                le_trans (List.length_filter_le _ _) (Nat.le_of_succ_le_succ h2)
              rw [ih g _ hf hg]

lemma firstSeenDedup_cons (x : String) (xs : List String) :
    firstSeenDedup (x :: xs) = x :: firstSeenDedup (xs.filter (fun y => y ≠ x)) := by
  show firstSeenDedupF ((x :: xs).length) (x :: xs) = _
  show x :: firstSeenDedupF xs.length (xs.filter (fun y => y ≠ x)) = _
  rw [firstSeenDedupF_irrel xs.length (xs.filter (fun y => y ≠ x)).length _
    (List.length_filter_le _ _) le_rfl]
  rfl

lemma firstSeenDedup_subset (l : List String) :
    ∀ x ∈ firstSeenDedup l, x ∈ l := by
  have H : ∀ (fuel : ℕ) (m : List String), m.length ≤ fuel →
      ∀ x ∈ firstSeenDedupF fuel m, x ∈ m := by
    intro fuel
    induction fuel with
    | zero =>
        intro m hm x hx
        cases m with
        | nil => simp [firstSeenDedupF] at hx
        | cons a as => simp at hm
    | succ f ih =>
        intro m hm x hx
        cases m with
        | nil => simp [firstSeenDedupF] at hx
        | cons a as =>
            rcases List.mem_cons.mp hx with h | h
            · exact h ▸ List.mem_cons_self a as
            · have hlen : (as.filter (fun y => y ≠ a)).length ≤ f :=
                le_trans (List.length_filter_le _ _) (Nat.le_of_succ_le_succ hm)
              have := ih _ hlen x h
              exact List.mem_cons_of_mem a (List.mem_of_mem_filter this)
  exact H l.length l le_rfl

lemma firstSeenDedup_nodup (l : List String) : (firstSeenDedup l).Nodup := by
  have H : ∀ (fuel : ℕ) (m : List String), m.length ≤ fuel →
      (firstSeenDedupF fuel m).Nodup := by
    intro fuel
    induction fuel with
    | zero =>
        intro m hm
        cases m with
        | nil => exact List.nodup_nil
        | cons a as => simp at hm
    | succ f ih =>
        intro m hm
        cases m with
        | nil => exact List.nodup_nil
        | cons a as =>
            have hlen : (as.filter (fun y => y ≠ a)).length ≤ f :=
              le_trans (List.length_filter_le _ _) (Nat.le_of_succ_le_succ hm)
            refine List.nodup_cons.mpr ⟨?_, ih _ hlen⟩
            intro hmem
            have hrw : firstSeenDedupF f (as.filter (fun y => y ≠ a)) =
                firstSeenDedup (as.filter (fun y => y ≠ a)) :=
              firstSeenDedupF_irrel f _ _ hlen le_rfl
            rw [hrw] at hmem
            have := firstSeenDedup_subset _ a hmem
            have := List.of_mem_filter this
            simp at this
  exact H l.length l le_rfl

lemma addToGroups_cons (k : String) (ms : List RawContact)
    (rest : List (String × List RawContact)) (e : String) (c : RawContact) :
    addToGroups ((k, ms) :: rest) e c =
      if k = e then (k, ms ++ [c]) :: rest else (k, ms) :: addToGroups rest e c := rfl

lemma lookupGroup_cons (k : String) (ms : List RawContact)
    (rest : List (String × List RawContact)) (x : String) :
    lookupGroup ((k, ms) :: rest) x = if k = x then ms else lookupGroup rest x := rfl

lemma groupKeys_cons (k : String) (ms : List RawContact)
    (rest : List (String × List RawContact)) :
    groupKeys ((k, ms) :: rest) = k :: groupKeys rest := rfl

lemma groupKeys_addToGroups (gs : List (String × List RawContact)) (e : String)
    (c : RawContact) :
    groupKeys (addToGroups gs e c) =
      if e ∈ groupKeys gs then groupKeys gs else groupKeys gs ++ [e] := by
  induction gs with
  | nil => simp [addToGroups, groupKeys]
  | cons p rest ih =>
      rcases p with ⟨k, ms⟩
      by_cases hk : k = e
      · subst hk
        rw [addToGroups_cons, if_pos rfl, groupKeys_cons, groupKeys_cons,
          if_pos (List.mem_cons_self k (groupKeys rest))]
      · rw [addToGroups_cons, if_neg hk, groupKeys_cons, groupKeys_cons, ih]
        by_cases hm : e ∈ groupKeys rest
        · rw [if_pos hm, if_pos (List.mem_cons_of_mem k hm)]
        · have hnotc : ¬ e ∈ k :: groupKeys rest := by
            intro h
            rcases List.mem_cons.mp h with h | h
            · exact hk h.symm
            · exact hm h
          rw [if_neg hm, if_neg hnotc]
          rfl

lemma lookupGroup_addToGroups (gs : List (String × List RawContact)) (e : String)
    (c : RawContact) (k : String) :
    lookupGroup (addToGroups gs e c) k =
      if k = e then lookupGroup gs e ++ [c] else lookupGroup gs k := by
  induction gs with
  | nil =>
      show lookupGroup [(e, [c])] k = _
      rw [lookupGroup_cons]
      by_cases hk : k = e
      · subst hk
        rw [if_pos rfl, if_pos rfl]
        rfl
      · rw [if_neg (fun h => hk h.symm), if_neg hk]
  | cons p rest ih =>
      rcases p with ⟨k', ms⟩
      by_cases hk' : k' = e
      · subst hk'
        rw [addToGroups_cons, if_pos rfl]
        by_cases hke : k = k'
        · subst hke
          simp [lookupGroup_cons]
        · simp [lookupGroup_cons, hke, Ne.symm hke]
      · rw [addToGroups_cons, if_neg hk']
        by_cases hke : k' = k
        · subst hke
          simp [lookupGroup_cons, ih, hk']
        · by_cases hkk : k = e
          · subst hkk
            simp [lookupGroup_cons, ih, hk', Ne.symm hke, hke]
          · simp [lookupGroup_cons, ih, hke, hkk]

lemma filter_not_mem_append (m acc : List String) (e : String) :
    (m.filter (fun x => x ≠ "" ∧ x ∉ acc)).filter (fun y => y ≠ e) =
      m.filter (fun x => x ≠ "" ∧ x ∉ acc ++ [e]) := by
  rw [List.filter_filter]
  apply List.filter_congr
  intro x _
  by_cases h1 : x = "" <;> by_cases h2 : x ∈ acc <;> by_cases h3 : x = e <;>
    simp [h1, h2, h3, List.mem_append]

lemma contactGroups_keys_aux :
    ∀ (l : List RawContact) (gs : List (String × List RawContact)),
      groupKeys (l.foldl (fun gs c =>
          let e := normEmail c
          if e = "" then gs else addToGroups gs e c) gs) =
        groupKeys gs ++
          firstSeenDedup ((l.map normEmail).filter
            (fun x => x ≠ "" ∧ x ∉ groupKeys gs)) := by
  intro l
  induction l with
  | nil => intro gs; simp [firstSeenDedup, firstSeenDedupF]
  | cons c rest ih =>
      intro gs
      rw [List.foldl_cons, List.map_cons, List.filter_cons]
      show groupKeys (rest.foldl _
        (if normEmail c = "" then gs else addToGroups gs (normEmail c) c)) = _
      by_cases he : normEmail c = ""
      · have hcond : ¬ (normEmail c ≠ "" ∧ normEmail c ∉ groupKeys gs) :=
          fun h => h.1 he
        rw [if_pos he, if_neg (by simpa using hcond)]
        exact ih gs
      · by_cases hm : normEmail c ∈ groupKeys gs
        · have hcond : ¬ (normEmail c ≠ "" ∧ normEmail c ∉ groupKeys gs) :=
            fun h => h.2 hm
          rw [if_neg he, if_neg (by simpa using hcond)]
          rw [ih (addToGroups gs (normEmail c) c), groupKeys_addToGroups, if_pos hm]
        · have hcond : normEmail c ≠ "" ∧ normEmail c ∉ groupKeys gs := ⟨he, hm⟩
          rw [if_neg he, if_pos (by simpa using hcond)]
          rw [ih (addToGroups gs (normEmail c) c), groupKeys_addToGroups, if_neg hm,
            firstSeenDedup_cons, filter_not_mem_append]
          simp [List.append_assoc]

lemma contactGroups_lookup_aux :
    ∀ (l : List RawContact) (gs : List (String × List RawContact)) (k : String),
      k ≠ "" →
      lookupGroup (l.foldl (fun gs c =>
          let e := normEmail c
          if e = "" then gs else addToGroups gs e c) gs) k =
        lookupGroup gs k ++ l.filter (fun c => normEmail c = k) := by
  intro l
  induction l with
  | nil => intro gs k _; simp
  | cons c rest ih =>
      intro gs k hk
      rw [List.foldl_cons, List.filter_cons]
      show lookupGroup (rest.foldl _
        (if normEmail c = "" then gs else addToGroups gs (normEmail c) c)) k = _
      by_cases he : normEmail c = ""
      · have hcond : ¬ (normEmail c = k) := fun h => hk (h ▸ he)
        rw [if_pos he, if_neg (by simpa using hcond)]
        exact ih gs k hk
      · rw [if_neg he, ih (addToGroups gs (normEmail c) c) k hk,
          lookupGroup_addToGroups]
        by_cases hke : k = normEmail c
        · rw [if_pos hke, if_pos (by simpa using hke.symm)]
          subst hke
          simp
        · rw [if_neg hke, if_neg (by simpa using fun h : normEmail c = k => hke h.symm)]

lemma lookupGroup_eq_of_mem :
    ∀ (gs : List (String × List RawContact)), (groupKeys gs).Nodup →
      ∀ p ∈ gs, lookupGroup gs p.1 = p.2 := by
  intro gs
  induction gs with
  | nil => intro _ p hp; simp at hp
  | cons q rest ih =>
      rcases q with ⟨k, ms⟩
      intro hnd p hp
      rw [groupKeys_cons, List.nodup_cons] at hnd
      rcases List.mem_cons.mp hp with hp | hp
      · subst hp
        rw [lookupGroup_cons, if_pos rfl]
      · rw [lookupGroup_cons, if_neg, ih hnd.2 p hp]
        intro hkp
        exact hnd.1 (hkp ▸ List.mem_map_of_mem Prod.fst hp)

lemma collectSources_aux :
    ∀ (g : List RawContact) (acc : List String),
      g.foldl (fun acc c =>
        match c.accountSource with
        | some s => if s ≠ "" ∧ s ∉ acc then acc ++ [s] else acc
        | none => acc) acc =
      acc ++ firstSeenDedup ((g.filterMap RawContact.accountSource).filter
        (fun s => s ≠ "" ∧ s ∉ acc)) := by
  intro g
  induction g with
  | nil => intro acc; simp [firstSeenDedup, firstSeenDedupF]
  | cons c rest ih =>
      intro acc
      rw [List.foldl_cons]
      cases hsrc : c.accountSource with
      | none =>
          simp only [hsrc]
          rw [List.filterMap_cons_none hsrc]
          exact ih acc
      | some s =>
          simp only [hsrc]
          rw [List.filterMap_cons_some hsrc, List.filter_cons]
          by_cases hcond : s ≠ "" ∧ s ∉ acc
          · rw [if_pos hcond, if_pos (by simpa using hcond), ih (acc ++ [s]),
              firstSeenDedup_cons, filter_not_mem_append]
            simp [List.append_assoc]
          · rw [if_neg hcond, if_neg (by simpa using hcond)]
            exact ih acc

lemma sumCounts_eq_sum (g : List RawContact) :
    ∀ a : ℕ, g.foldl (fun acc c => acc + c.emailCount.getD 0) a =
      a + (g.map (fun c => c.emailCount.getD 0)).sum := by
  induction g with
  | nil => intro a; simp
  | cons c rest ih =>
      intro a
      rw [List.foldl_cons, List.map_cons, List.sum_cons, ih, Nat.add_assoc]

/-- C5: `merge_contacts_by_email` drops records whose email is empty after
trimming and lowercasing, groups the rest by normalized email producing
exactly one merged record per distinct normalized email in first-seen order,
and each merged record's `account_sources` is the ordered-unique union of its
group's labels in first-seen order while its `email_count` is the sum of the
group's counts with missing counts as 0. -/
theorem c5_merge_grouping (l : List RawContact)
    (hsrc : ∀ c ∈ l, ∃ s, c.accountSource = some s ∧ s ≠ "") :
    (mergeContactsByEmail l).map MergedContact.email =
      firstSeenDedup ((l.map normEmail).filter (fun e => e ≠ "")) ∧
    ∀ m ∈ mergeContactsByEmail l,
      m.email ≠ "" ∧
      m.accountSources =
        firstSeenDedup ((l.filter (fun c => normEmail c = m.email)).filterMap
          RawContact.accountSource) ∧
      m.emailCount =
        ((l.filter (fun c => normEmail c = m.email)).map
          (fun c => c.emailCount.getD 0)).sum := by
  have hkeys : groupKeys (contactGroups l) =
      firstSeenDedup ((l.map normEmail).filter (fun e => e ≠ "")) := by
    have h := contactGroups_keys_aux l []
    have hcongr : (l.map normEmail).filter
        (fun x => x ≠ "" ∧ x ∉ groupKeys ([] : List (String × List RawContact))) =
        (l.map normEmail).filter (fun e => e ≠ "") :=
      List.filter_congr (by intro x _; simp [groupKeys])
    rw [hcongr] at h
    exact h
  have hmap : (mergeContactsByEmail l).map MergedContact.email =
      groupKeys (contactGroups l) := by
    show ((contactGroups l).map (fun g => mergeGroup g.1 g.2)).map
      MergedContact.email = (contactGroups l).map Prod.fst
    rw [List.map_map]
    rfl
  refine ⟨hmap.trans hkeys, ?_⟩
  intro m hm
  rcases List.mem_map.mp hm with ⟨p, hp, rfl⟩
  have hkeyNodup : (groupKeys (contactGroups l)).Nodup := by
    rw [hkeys]
    exact firstSeenDedup_nodup _
  have hk1 : p.1 ∈ groupKeys (contactGroups l) :=
    List.mem_map_of_mem Prod.fst hp
  have hne : p.1 ≠ "" := by
    rw [hkeys] at hk1
    have := firstSeenDedup_subset _ _ hk1
    have := List.of_mem_filter this
    simpa using this
  have hval : p.2 = l.filter (fun c => normEmail c = p.1) := by
    have h1 := lookupGroup_eq_of_mem (contactGroups l) hkeyNodup p hp
    have h2 := contactGroups_lookup_aux l [] p.1 hne
    have h3 : lookupGroup (contactGroups l) p.1 =
        l.filter (fun c => normEmail c = p.1) := by
      rw [show contactGroups l = l.foldl (fun gs c =>
        let e := normEmail c
        if e = "" then gs else addToGroups gs e c) [] from rfl, h2]
      rfl
    rw [← h1, h3]
  have hsrcGroup : ∀ c ∈ p.2, ∃ s, c.accountSource = some s ∧ s ≠ "" := by
    intro c hc
    rw [hval] at hc
    exact hsrc c (List.mem_of_mem_filter hc)
  refine ⟨hne, ?_, ?_⟩
  · have h := collectSources_aux p.2 []
    have hfilt : (p.2.filterMap RawContact.accountSource).filter
        (fun s => s ≠ "" ∧ s ∉ ([] : List String)) =
        p.2.filterMap RawContact.accountSource := by
      apply List.filter_eq_self.mpr
      intro s hs
      rcases List.mem_filterMap.mp hs with ⟨c, hc, hcs⟩
      rcases hsrcGroup c hc with ⟨t, ht, htne⟩
      rw [ht] at hcs
      injection hcs with hst
      subst hst
      simpa using htne
    show collectSources p.2 = firstSeenDedup ((l.filter
      (fun c => normEmail c = p.1)).filterMap RawContact.accountSource)
    rw [← hval]
    rw [show collectSources p.2 = p.2.foldl (fun acc c =>
      match c.accountSource with
      | some s => if s ≠ "" ∧ s ∉ acc then acc ++ [s] else acc
      | none => acc) [] from rfl, h, hfilt, List.nil_append]
  · show sumCounts p.2 = ((l.filter (fun c => normEmail c = p.1)).map
      (fun c => c.emailCount.getD 0)).sum
    rw [← hval]
    rw [show sumCounts p.2 = p.2.foldl
      (fun acc c => acc + c.emailCount.getD 0) 0 from rfl,
      sumCounts_eq_sum, Nat.zero_add]

/-- Closed witness for `c5_merge_grouping` on the two-account sample: the two
records merge into one contact keyed "a@x.com" with both sources and summed
count 5. -/
theorem c5_merge_grouping_witness :
    (mergeContactsByEmail sampleContacts).map MergedContact.email =
      firstSeenDedup ((sampleContacts.map normEmail).filter (fun e => e ≠ "")) ∧
    (mergeContactsByEmail sampleContacts).map MergedContact.email = ["a@x.com"] ∧
    (MergedContact.mk "a@x.com" (some "A Full") none ["acct1", "acct2"] 5
        (some 2)).accountSources =
      firstSeenDedup ((sampleContacts.filter (fun c => normEmail c =
        (MergedContact.mk "a@x.com" (some "A Full") none ["acct1", "acct2"] 5
          (some 2)).email)).filterMap RawContact.accountSource) ∧
    (mergeContactsByEmail sampleContacts).map MergedContact.accountSources =
      [["acct1", "acct2"]] ∧
    (mergeContactsByEmail sampleContacts).map MergedContact.emailCount = [5] := by
  refine ⟨(c5_merge_grouping sampleContacts (by decide)).1, by decide, ?_, by decide,
    by decide⟩
  exact ((c5_merge_grouping sampleContacts (by decide)).2
    (MergedContact.mk "a@x.com" (some "A Full") none ["acct1", "acct2"] 5 (some 2))
    (by decide)).2.1

/-! ### Contact merger: name resolution -/

lemma firstGoodName_of_all_bad :
    ∀ m : List RawContact, (∀ d ∈ m, goodName d = false) → firstGoodName m = none := by
  intro m
  induction m with
  | nil => intro _; rfl
  | cons c rest ih =>
      intro h
      show (if goodName c then _ else firstGoodName rest) = none
      rw [h c (List.mem_cons_self c rest)]
      simp only [Bool.false_eq_true, if_false]
      exact ih (fun d hd => h d (List.mem_cons_of_mem c hd))

/-- C6 counterexample: in a group with distinct non-null timestamps where the
newest record has no name, `_resolve_name` returns the older record's name
"Bob", not the newest record's (absent) name as the claim asserts. -/
theorem c6_counterexample_newest_nameless :
    resolveName newestNamelessGroup = some "Bob" ∧
    (∀ d ∈ newestNamelessGroup,
      nameKey d ≤ nameKey (RawContact.mk (some "a@x.com") none none
        (some "acct1") none (some 2))) ∧
    (RawContact.mk (some "a@x.com") none none (some "acct1") none
      (some 2)) ∈ newestNamelessGroup ∧
    (newestNamelessGroup.map nameKey).Nodup ∧
    (RawContact.mk (some "a@x.com") none none (some "acct1") none
      (some 2)).name = none := by
  refine ⟨by decide, by decide, by decide, by decide, rfl⟩

/-- C6 (amended): the merged name is the first non-empty trimmed name after
the stable descending sort by `last_contact_at` (records lacking a timestamp
last), and is None when all names are empty; in particular, for records with
distinct non-null timestamps whose names are all non-empty after trimming,
the merged name is the trimmed name of the record with the greatest
timestamp. -/
theorem c6_name_resolution (l : List RawContact) (c : RawContact)
    (_hall : ∀ d ∈ l, (d.lastContactAt).isSome = true)
    (hnd : (l.map nameKey).Nodup)
    (hc : c ∈ l)
    (hmax : ∀ d ∈ l, nameKey d ≤ nameKey c) :
    ((∀ d ∈ l, goodName d = true) →
      resolveName l = some (pyStrip (c.name.getD ""))) ∧
    ((∀ d ∈ l, goodName d = false) → resolveName l = none) := by
  have hperm := List.perm_insertionSort
    (fun a b : RawContact => nameKey b ≤ nameKey a) l
  constructor
  · intro hgood
    haveI : IsTotal RawContact (fun a b => nameKey b ≤ nameKey a) :=
      ⟨fun a b => le_total (nameKey b) (nameKey a)⟩
    haveI : IsTrans RawContact (fun a b => nameKey b ≤ nameKey a) :=
      ⟨fun _ _ _ h1 h2 => le_trans h2 h1⟩
    have hsorted := List.sorted_insertionSort
      (fun a b : RawContact => nameKey b ≤ nameKey a) l
    rcases hs : l.insertionSort (fun a b => nameKey b ≤ nameKey a) with _ | ⟨h0, t⟩
    · rw [hs] at hperm
      have := hperm.symm.mem_iff.mp hc
      simp at this
    · rw [hs] at hperm hsorted
      have hh0l : h0 ∈ l := hperm.mem_iff.mp (List.mem_cons_self h0 t)
      have hcs : c ∈ h0 :: t := hperm.symm.mem_iff.mp hc
      have hhead : h0 = c := by
        rcases List.mem_cons.mp hcs with h | h
        · exact h.symm
        · have h1 : nameKey c ≤ nameKey h0 :=
            (List.sorted_cons.mp hsorted).1 c h
          have h2 : nameKey h0 ≤ nameKey c := hmax h0 hh0l
          exact List.inj_on_of_nodup_map hnd hh0l hc (le_antisymm h2 h1)
      subst hhead
      show firstGoodName (l.insertionSort (fun a b => nameKey b ≤ nameKey a)) = _
      rw [hs]
      show (if goodName h0 then some (pyStrip (h0.name.getD ""))
        else firstGoodName t) = _
      rw [hgood h0 hh0l]
      simp
  · intro hbad
    apply firstGoodName_of_all_bad
    intro d hd
    exact hbad d (hperm.mem_iff.mp hd)

/-- Closed witness for `c6_name_resolution`: with timestamps 1 and 2 and
names " Al " and "Bea", the merged name is the trimmed name of the newest
record, "Bea". -/
theorem c6_name_resolution_witness :
    resolveName namedTimestampGroup =
      some (pyStrip ((RawContact.mk (some "a@x.com") (some "Bea") none
        (some "acct2") none (some 2)).name.getD "")) ∧
    resolveName namedTimestampGroup = some "Bea" :=
  ⟨(c6_name_resolution namedTimestampGroup
      (RawContact.mk (some "a@x.com") (some "Bea") none (some "acct2") none
        (some 2))
      (by decide) (by decide) (by decide) (by decide)).1 (by decide),
    by decide⟩

/-! ### Gmail client and worker task claims -/

lemma fetchMessageBatch_err (ids : List String) (h : ids ≠ []) :
    fetchMessageBatch ids = (.error tokensKwErr, 0) := by
  cases ids with
  | nil => exact absurd rfl h
  | cons x xs => rfl

/-- C10: for every non-empty id list, `fetch_message_batch` raises TypeError
before issuing any provider request: `_fetch_batch_chunk` calls
`wait_for_token(tokens=len(message_ids))` but `wait_for_token` accepts only a
`timeout` parameter; the empty list short-circuits to `[]` with no request. -/
theorem c10_fetch_batch_kwarg_typeerror (ids : List String) (h : ids ≠ []) :
    fetchMessageBatch ids = (.error tokensKwErr, 0) ∧
    callWaitForToken ["tokens"] = .error tokensKwErr ∧
    fetchMessageBatch ([] : List String) = (.ok [], 0) :=
  ⟨fetchMessageBatch_err ids h, rfl, rfl⟩

/-- Closed witness for `c10_fetch_batch_kwarg_typeerror` at `["m1"]`. -/
theorem c10_fetch_batch_kwarg_typeerror_witness :
    (["m1"] : List String) ≠ [] ∧
    fetchMessageBatch ["m1"] = (.error tokensKwErr, 0) :=
  ⟨by decide, (c10_fetch_batch_kwarg_typeerror ["m1"] (by decide)).1⟩

lemma runPages_char (i n : ℕ) (a : AccountEnv) (st : TaskState) :
    ∀ pages, runPages i n a pages st =
      (if firstListingNonempty pages then (.error tokensKwErr, st)
       else (.ok (), st)) := by
  intro pages
  cases pages with
  | nil => simp [runPages, firstListingNonempty]
  | cons ids rest =>
      by_cases hids : ids.isEmpty
      · simp [runPages, firstListingNonempty, hids]
      · have hne : ids ≠ [] := by
          cases ids with
          | nil => simp at hids
          | cons y ys => simp
        simp [runPages, firstListingNonempty, hids,
          fetchMessageBatch_err ids hne]

lemma runAccounts_char (n : ℕ) :
    ∀ (accts : List AccountEnv) (i : ℕ) (st : TaskState),
      runAccounts i n accts st =
        (if accts.any (fun a => firstListingNonempty a.pages) then
          (.error tokensKwErr, st)
         else (.ok (), st)) := by
  intro accts
  induction accts with
  | nil => intro i st; simp [runAccounts]
  | cons a rest ih =>
      intro i st
      by_cases hl : firstListingNonempty a.pages
      · simp [runAccounts, runPages_char, hl]
      · simp [runAccounts, runPages_char, hl, ih]

lemma scanBody_isErr (env : ScanEnv) : isErr (scanBody env).1 = true := by
  unfold scanBody
  by_cases hu : env.userExists
  · by_cases ha : env.accounts.isEmpty
    · simp [hu, ha, isErr]
    · simp only [hu, ha, Bool.not_true, Bool.false_eq_true, if_false, if_neg,
        not_false_iff]
      rcases hra : runAccounts 0 env.accounts.length env.accounts _ with ⟨res, st'⟩
      cases res with
      | error e => simp [hra, isErr]
      | ok r =>
          simp only [hra]
          rcases hrt : runThemesBatches env.accounts _ _ _ with ⟨res2, st2⟩
          cases res2 with
          | error e => simp [hrt, isErr]
          | ok r2 => simp [hrt, isErr]
  · simp [hu, isErr]

/-- C1 (amended): `scan_gmail_task` can never finish in the "completed"
state: every execution that lists at least one message id fails inside the
emails phase with the TypeError raised by `fetch_message_batch`'s
`wait_for_token(tokens=...)` call, so the themes phase and `generate_tags`
are never reached, and every execution that reaches the vault phase raises
NameError on the never-assigned `merged_contacts`; hence every run raises,
ends via the exception handler with job status "failed", and never reaches
status "completed". -/
theorem c1_scan_never_completes (env : ScanEnv) :
    isErr (scanGmailTask env).1 = true ∧
    (scanGmailTask env).2.job.status = "failed" ∧
    (scanGmailTask env).2.job.status ≠ "completed" := by
  have hb := scanBody_isErr env
  unfold scanGmailTask
  rcases hsb : scanBody env with ⟨res, st⟩
  rw [hsb] at hb
  cases res with
  | ok r => simp [isErr] at hb
  | error e =>
      refine ⟨rfl, rfl, ?_⟩
      show ("failed" : String) ≠ "completed"
      decide

/-- C1 counterexample to the stated mechanism: the run whose single account
lists exactly one message id fails with the TypeError of the emails phase
while the job is still in phase "emails"; it does not reach the themes phase,
so no AttributeError from `generate_tags` occurs. -/
theorem c1_counterexample_typeerror_in_emails_phase :
    (scanGmailTask oneMessageEnv).1 = .error tokensKwErr ∧
    tokensKwErr = .typeError "wait_for_token got an unexpected keyword argument" ∧
    (scanGmailTask oneMessageEnv).2.job.phase = "emails" ∧
    (scanGmailTask oneMessageEnv).2.job.status = "failed" ∧
    oneMessageEnv.accounts.map (fun a => a.pages.map List.length) = [[1]] := by
  refine ⟨by decide, rfl, by decide, by decide, by decide⟩

lemma scanTrace_cases (env : ScanEnv) :
    scanTrace env = [0, 0] ∨ scanTrace env = [0, 15, 15] ∨
    scanTrace env = [0, 15, 15, 40, 70, 70] := by
  unfold scanTrace scanGmailTask scanBody
  by_cases hu : env.userExists
  · by_cases ha : env.accounts.isEmpty
    · left
      simp [hu, ha, commitJob, initJob]
    · by_cases hl : env.accounts.any (fun a => firstListingNonempty a.pages)
      · right; left
        simp [hu, ha, commitJob, initJob, runAccounts_char, hl]
      · right; right
        simp [hu, ha, commitJob, initJob, runAccounts_char, hl, runThemesBatches,
          pyChunks, pyChunksF]
  · left
    simp [hu, commitJob, initJob]

lemma sorted_after_fifteen (tr : List ℤ) (hs : List.Sorted (· ≤ ·) tr) :
    ∀ i j : ℕ, i < j → tr.get? i = some 15 → ∀ v : ℤ, tr.get? j = some v →
      15 ≤ v := by
  intro i j hij hi v hv
  rcases List.get?_eq_some.mp hi with ⟨hilt, hig⟩
  rcases List.get?_eq_some.mp hv with ⟨hjlt, hjg⟩
  have := List.pairwise_iff_get.mp hs ⟨i, hilt⟩ ⟨j, hjlt⟩ hij
  rw [hig, hjg] at this
  exact this

/-- C2: over every run of `scan_gmail_task`, the sequence of `progress_pct`
values committed to the SyncJob row is non-decreasing, and once 15 has been
committed every later committed value is at least 15.  (The page-progress
formula that could regress below 15 sits behind `fetch_message_batch`, whose
keyword TypeError makes that commit unreachable, so every committed trace is
one of the fixed monotone sequences.) -/
theorem c2_progress_trace_monotone (env : ScanEnv) :
    List.Sorted (· ≤ ·) (scanTrace env) ∧
    ∀ i j : ℕ, i < j → (scanTrace env).get? i = some 15 →
      ∀ v : ℤ, (scanTrace env).get? j = some v → 15 ≤ v := by
  have hsorted : List.Sorted (· ≤ ·) (scanTrace env) := by
    rcases scanTrace_cases env with h | h | h <;> rw [h] <;> decide
  exact ⟨hsorted, sorted_after_fifteen _ hsorted⟩

/-- Closed witness for `c2_progress_trace_monotone` on the empty-listing run,
whose committed trace is `[0, 15, 15, 40, 70, 70]`. -/
theorem c2_progress_trace_monotone_witness :
    List.Sorted (· ≤ ·) (scanTrace emptyListingEnv) ∧
    scanTrace emptyListingEnv = [0, 15, 15, 40, 70, 70] ∧
    (1 : ℕ) < 3 ∧ (scanTrace emptyListingEnv).get? 1 = some 15 ∧
    (scanTrace emptyListingEnv).get? 3 = some 40 ∧ (15 : ℤ) ≤ 40 :=
  ⟨(c2_progress_trace_monotone emptyListingEnv).1, by decide, by decide, by decide,
    by decide,
    (c2_progress_trace_monotone emptyListingEnv).2 1 3 (by decide) (by decide) 40
      (by decide)⟩

/-- C9: whenever the body of `scan_gmail_task` raises after the SyncJob row
was created, the handler updates the row to status "failed" with
`error_message` set to the exception text and `completed_at` set, commits,
and re-raises the same exception to the caller. -/
theorem c9_failure_handler (env : ScanEnv) (e : PyErr)
    (h : (scanBody env).1 = .error e) :
    (scanGmailTask env).1 = .error e ∧
    (scanGmailTask env).2.job.status = "failed" ∧
    (scanGmailTask env).2.job.errorMessage = some e.text ∧
    (scanGmailTask env).2.job.completedAtSet = true ∧
    (scanGmailTask env).2.committed =
      (scanBody env).2.committed ++ [(scanBody env).2.job.progressPct] := by
  unfold scanGmailTask
  rcases hsb : scanBody env with ⟨res, st⟩
  rw [hsb] at h
  cases res with
  | ok r => simp at h
  | error e' =>
      have he : e' = e := by simpa using h
      subst he
      refine ⟨rfl, rfl, rfl, rfl, rfl⟩

/-- Closed witness for `c9_failure_handler` on the empty-listing run, whose
body raises the vault-phase NameError. -/
theorem c9_failure_handler_witness :
    (scanBody emptyListingEnv).1 =
      .error (.nameError "name merged_contacts is not defined") ∧
    (scanGmailTask emptyListingEnv).1 =
      .error (.nameError "name merged_contacts is not defined") ∧
    (scanGmailTask emptyListingEnv).2.job.errorMessage =
      some "name merged_contacts is not defined" :=
  ⟨by decide,
    (c9_failure_handler emptyListingEnv
      (.nameError "name merged_contacts is not defined") (by decide)).1,
    (c9_failure_handler emptyListingEnv
      (.nameError "name merged_contacts is not defined") (by decide)).2.2.1⟩
